import Mathlib

/-!
Shallow embedding of the dazure-cosmos client library (TypeScript, Deno) and
proofs about its documented behaviour.  Pure data flow is modelled directly;
HTTP exchanges are modelled by letting each operation consume a trace of
responses, one response per attempted fetch.  Numeric response headers
(`x-ms-request-charge`, `x-ms-request-duration-ms`) are modelled as rationals.
-/

namespace DazureCosmos

/-- Helper for `strIncludes`: does `pat` occur as a contiguous run inside the
character list? -/
def charsInclude (pat : List Char) : List Char → Bool
  | [] => pat.isEmpty
  | c :: rest => pat.isPrefixOf (c :: rest) || charsInclude pat rest

/-- The substring test performed by the JavaScript `String.includes` method:
`strIncludes s pat` is true when `pat` occurs inside `s`. -/
def strIncludes (s pat : String) : Bool := charsInclude pat.data s.data

/-- An error value raised by the client code.  `transitory` records whether the
value is an instance of the deps.ts `OperationTransitoryError` class; `message`
is the JavaScript error message. -/
structure JsError where
  transitory : Bool
  message : String
deriving DecidableEq, Repr

deriving instance DecidableEq for Except

/-- `Response.ok` of the fetch API: status in the range 200..299. -/
def responseOk (status : Nat) : Bool := 200 ≤ status && status ≤ 299

/-- From ensureRaisingOfTransitoryErrors.ts: raise an `OperationTransitoryError`
for response status 429, 503 or 504; otherwise take no action. -/
def ensureRaisingOfTransitoryErrors (status : Nat) : Except JsError Unit :=
  if status = 429 then .error ⟨true, "Too many requests."⟩
  else if status = 503 then .error ⟨true, "Gateway unavailable."⟩
  else if status = 504 then .error ⟨true, "Gateway time-out."⟩
  else .ok ()

/-- Modelled from the spec: handleCosmosTransitoryErrors.ts is not among the
provided sources; §9 of the spec describes it as a near-duplicate sibling of
`ensureRaisingOfTransitoryErrors` applying the same status rules (429/503/504
raise a transitory error, anything else is left alone). -/
def handleCosmosTransitoryErrors (status : Nat) : Except JsError Unit :=
  ensureRaisingOfTransitoryErrors status

/-- The error-message pattern recognised by `isCosmosTransientError`
(cosmosRetryable.ts). -/
def authTokenMsg : String := "authorization token is not valid at the current time"

/-- From cosmosRetryable.ts: an error is a Cosmos-specific transient issue when
its message reports that the authorization token is outside its validity
window. -/
def isCosmosTransientError (err : JsError) : Bool := strIncludes err.message authTokenMsg

/-- From cosmosRetryable.ts: the default retry strategy, nine backoff delays in
milliseconds. -/
def CosmosDefaultRetryStrategy : List Nat :=
  [100, 200, 300, 400, 500, 1000, 2000, 3000, 5000]

/-- An error is retried when it is an `OperationTransitoryError` or matches the
auth-token validity-window pattern (the predicate installed by
`cosmosRetryable`). -/
def cosmosIsTransient (e : JsError) : Bool := e.transitory || isCosmosTransientError e

/-- Modelled from the spec: the `retryable` helper imported from deps.ts (its
source is not in this repository).  Per §4.3/§7 it runs the operation, retries
on a transient error while delays remain (consuming the delays in order, one
per retry, sleeping that delay), propagates a permanent error immediately, and
on exhausting all delays propagates the last transient error unchanged.  An
error counts as transient when it is an `OperationTransitoryError`
(429/503/504, §7 TransientServerBusy) or when the installed predicate accepts
it.  Each attempt consumes the next element of the environment trace `rs`; the
function returns the outcome, the unconsumed trace, and the list of delays
slept. -/
def runRetry (isT : JsError → Bool) (attempt : ρ → Except JsError σ) :
    List Nat → List ρ → Except JsError σ × List ρ × List Nat
  | _, [] => (.error ⟨false, "no response"⟩, [], [])
  | delays, r :: rest =>
    match attempt r with
    | .ok v => (.ok v, rest, [])
    | .error e =>
      if e.transitory || isT e then
        match delays with
        | [] => (.error e, rest, [])
        | d :: ds =>
          let t := runRetry isT attempt ds rest
          (t.1, t.2.1, d :: t.2.2)
      else (.error e, rest, [])

/-- From cosmosRetryable.ts: `retryable` applied with the default strategy and
`isCosmosTransientError` as the extra transient predicate. -/
def cosmosRetryable (attempt : ρ → Except JsError σ) (trace : List ρ) :
    Except JsError σ × List ρ × List Nat :=
  runRetry isCosmosTransientError attempt CosmosDefaultRetryStrategy trace

/-- One HTTP response to a page-query POST, as far as the drivers inspect it:
the status, the `x-ms-continuation` header (`none` models an absent header),
the parsed `x-ms-request-charge` and `x-ms-request-duration-ms` headers, the
`Documents` array of the JSON body, and the raw body text used when composing
a permanent error message. -/
structure PageResponse (α : Type) where
  status : Nat
  continuation : Option String
  requestCharge : ℚ
  requestDurationMs : ℚ
  documents : List α
  bodyText : String
deriving DecidableEq, Repr

/-- JavaScript falsiness of a continuation-token header value: the header is
absent (`null`) or the empty string. -/
def tokenFalsy : Option String → Bool
  | none => true
  | some s => s.isEmpty

/-- The mutable state of one paginated query run: the accumulator variables
`records`, `continuationToken`, `requestCharge`,
`requestDurationMilliseconds` and `isAllRecordsLoaded` declared before the
`while` loop in queryDocumentsGateway (listDatabases.ts) and
getValueArrayForPkRange (queryDocumentsContainersDirect.ts). -/
structure QueryAccum (α : Type) where
  records : List α
  continuationToken : Option String
  requestCharge : ℚ
  requestDurationMilliseconds : ℚ
  isAllRecordsLoaded : Bool
deriving DecidableEq, Repr

/-- The initial accumulator values of a paginated query run. -/
def initialAccum : QueryAccum α := ⟨[], none, 0, 0, false⟩

/-- The body of the closure passed to `cosmosRetryable` for one page fetch.
Both queryDocumentsGateway (listDatabases.ts lines 138..195) and
getValueArrayForPkRange (queryDocumentsContainersDirect.ts lines 259..315)
contain this same closure, differing only in the request headers they attach
(not inspected by the control flow) and in the permanent error message, which
is therefore a parameter `errMsg` here.  Mirroring the statement order of the
source, the two throwing statements (`ensureRaisingOfTransitoryErrors` and the
non-ok throw) come before every accumulator update, so a failing attempt
returns its error with the accumulator untouched. -/
def pageQueryAttempt (errMsg : String) (s : QueryAccum α) (r : PageResponse α) :
    Except JsError (QueryAccum α) :=
  match ensureRaisingOfTransitoryErrors r.status with
  | .error e => .error e
  | .ok _ =>
    if responseOk r.status = false then
      .error ⟨false, errMsg ++ "\n" ++ r.bodyText⟩
    else
      let ct := r.continuation
      .ok { records := s.records ++ r.documents
            continuationToken := ct
            requestCharge := s.requestCharge + r.requestCharge
            requestDurationMilliseconds := s.requestDurationMilliseconds + r.requestDurationMs
            isAllRecordsLoaded := if tokenFalsy ct then true else s.isAllRecordsLoaded }

/-- The `while (!isAllRecordsLoaded)` loop shared by queryDocumentsGateway and
getValueArrayForPkRange: each iteration runs one `cosmosRetryable` page fetch
and loops on the updated accumulator; a permanent (or retry-exhausted) error
ends the run with that error.  The loop is driven by a fuel argument so that
it is structurally recursive; the drivers always supply `trace.length + 1`
fuel, which is sufficient because every iteration consumes at least one
response from the trace, and running out of responses (the fuel-zero case and
the empty-trace case inside `runRetry`) yields the same "no response"
failure. -/
def queryLoopFuel (errMsg : String) :
    Nat → QueryAccum α → List (PageResponse α) →
    Except JsError (QueryAccum α) × List (PageResponse α)
  | 0, _, trace => (.error ⟨false, "no response"⟩, trace)
  | fuel + 1, s, trace =>
    if s.isAllRecordsLoaded then (.ok s, trace)
    else
      match cosmosRetryable (pageQueryAttempt errMsg s) trace with
      | (.ok s2, rest, _) => queryLoopFuel errMsg fuel s2 rest
      | (.error e, rest, _) => (.error e, rest)

/-- The value returned by a successful paginated query run: records plus the
accumulated charge and duration. -/
structure PagedResult (α : Type) where
  records : List α
  requestCharge : ℚ
  requestDurationMilliseconds : ℚ
deriving DecidableEq, Repr

/-- Package the final accumulator of a paginated run as its returned value. -/
def pagedResultOf (s : QueryAccum α) : PagedResult α :=
  ⟨s.records, s.requestCharge, s.requestDurationMilliseconds⟩

/-- Run a paginated query loop from the initial accumulator and package the
result. -/
def runPagedQuery (errMsg : String) (trace : List (PageResponse α)) :
    Except JsError (PagedResult α) × List (PageResponse α) :=
  match queryLoopFuel errMsg (trace.length + 1) initialAccum trace with
  | (.ok s, rest) => (.ok (pagedResultOf s), rest)
  | (.error e, rest) => (.error e, rest)

/-- The permanent error message of queryDocumentsGateway; `paramsText` stands
for `JSON.stringify(parameters)`. -/
def gatewayErrMsg (databaseName collectionName query paramsText : String) : String :=
  "Unable to query collection (gateway) " ++ databaseName ++ "/" ++ collectionName ++
    " with query " ++ query ++ " and parameters " ++ paramsText ++ "."

/-- The permanent error message of getValueArrayForPkRange. -/
def pkRangeErrMsg (databaseName collectionName pkRange query paramsText : String) : String :=
  "Unable to query collection (container-direct-mode) " ++ databaseName ++ "/" ++
    collectionName ++ "/" ++ pkRange ++ " with query " ++ query ++
    " and parameters " ++ paramsText ++ "."

/-- From listDatabases.ts (lines 127..196): queryDocumentsGateway executes the
query against the gateway, following continuation tokens; every page fetch is
wrapped individually in `cosmosRetryable` and appends to the shared
accumulators.  The request headers (partition key, session token,
continuation) do not influence the modelled control flow and are not
represented. -/
def queryDocumentsGateway (databaseName collectionName query paramsText : String)
    (trace : List (PageResponse α)) :
    Except JsError (PagedResult α) × List (PageResponse α) :=
  runPagedQuery (gatewayErrMsg databaseName collectionName query paramsText) trace

/-- From queryDocumentsContainersDirect.ts (lines 248..316):
getValueArrayForPkRange runs the query against a single partition key range,
following continuation tokens, each page fetch individually wrapped in
`cosmosRetryable`.  The `x-ms-documentdb-partitionkeyrangeid` header carries
`pkRange`; headers do not influence the modelled control flow. -/
def getValueArrayForPkRange (databaseName collectionName pkRange query paramsText : String)
    (trace : List (PageResponse α)) :
    Except JsError (PagedResult α) × List (PageResponse α) :=
  runPagedQuery (pkRangeErrMsg databaseName collectionName pkRange query paramsText) trace

/-- One HTTP response to the pkranges GET, as far as getPkRangesForContainer
inspects it: the status, the `_rid` field and `PartitionKeyRanges[].id` list of
the JSON body, and the raw body text used in the permanent error message. -/
structure PkRangesResponse where
  status : Nat
  rid : String
  partitionKeyRanges : List String
  bodyText : String
deriving DecidableEq, Repr

/-- The closure passed to `cosmosRetryable` inside getPkRangesForContainer
(queryDocumentsContainersDirect.ts lines 162..217): raise for transitory
statuses, throw a permanent error on any other non-ok status, otherwise parse
the body and compose each partition key range as `` `${_rid},${id}` ``. -/
def getPkRangesAttempt (errMsg : String) (r : PkRangesResponse) :
    Except JsError (List String) :=
  match ensureRaisingOfTransitoryErrors r.status with
  | .error e => .error e
  | .ok _ =>
    if responseOk r.status = false then
      .error ⟨false, errMsg ++ "\n" ++ r.bodyText⟩
    else
      .ok (r.partitionKeyRanges.map (fun pkrId => r.rid ++ "," ++ pkrId))

/-- From queryDocumentsContainersDirect.ts: getPkRangesForContainer issues a
single signed GET (wrapped in `cosmosRetryable`) for the collection's current
partition key ranges. -/
def getPkRangesForContainer (databaseName collectionName : String)
    (trace : List PkRangesResponse) :
    Except JsError (List String) × List PkRangesResponse × List Nat :=
  cosmosRetryable
    (getPkRangesAttempt
      ("Unable to get pk-ranges from collection " ++ databaseName ++ "/" ++
        collectionName ++ "."))
    trace

/-- The `transform` argument of queryDocumentsContainersDirect. -/
inductive CombineMode where
  | concatArrays
  | sum
deriving DecidableEq, Repr

/-- The `data` field of a queryDocumentsContainersDirect result: either the
combined value array or, under the `sum` transform, a single number. -/
inductive DirectData (α : Type) where
  | arr : List α → DirectData α
  | num : ℚ → DirectData α
deriving DecidableEq, Repr

/-- The result of queryDocumentsContainersDirect. -/
structure DirectQueryResult (α : Type) where
  data : DirectData α
  requestCharge : ℚ
  requestDurationMilliseconds : ℚ
deriving DecidableEq, Repr

/-- `Promise.all` over already-settled outcomes: the first rejection (in list
order, which is the deterministic rendering of "the first error surfaces")
rejects the whole aggregate; otherwise all fulfilled values are collected in
order. -/
def promiseAll : List (Except JsError σ) → Except JsError (List σ)
  | [] => .ok []
  | .error e :: _ => .error e
  | .ok v :: rest =>
    match promiseAll rest with
    | .error e => .error e
    | .ok vs => .ok (v :: vs)

/-- From queryDocumentsContainersDirect.ts (lines 83..151): resolve the pk
ranges afresh for this invocation, run getValueArrayForPkRange once per range
concurrently, wait for all of them (`Promise.all`), push every range's records
into one combined array while summing charge and duration, and finally apply
the `sum` reduction or return the combined array unchanged.  Each concurrent
range run consumes its own response trace; `rangeNets` lists those traces in
range order, zipped against the resolved ranges.  `asNum` renders the
JavaScript `as number` cast applied by the `sum` reduction (whose elements are
expected to already be numbers). -/
def queryDocumentsContainersDirect (databaseName collectionName query paramsText : String)
    (transform : CombineMode) (asNum : α → ℚ)
    (pkTrace : List PkRangesResponse) (rangeNets : List (List (PageResponse α))) :
    Except JsError (DirectQueryResult α) :=
  match (getPkRangesForContainer databaseName collectionName pkTrace).1 with
  | .error e => .error e
  | .ok pkRanges =>
    match promiseAll ((pkRanges.zip rangeNets).map (fun pr =>
        (getValueArrayForPkRange databaseName collectionName pr.1 query paramsText pr.2).1)) with
    | .error e => .error e
    | .ok arrayOfContainerResults =>
      let combinedValueArray :=
        arrayOfContainerResults.foldl (fun a c => a ++ c.records) []
      let requestCharge :=
        arrayOfContainerResults.foldl (fun a c => a + c.requestCharge) (0 : ℚ)
      let requestDurationMilliseconds :=
        arrayOfContainerResults.foldl (fun a c => a + c.requestDurationMilliseconds) (0 : ℚ)
      let data :=
        match transform with
        | CombineMode.sum =>
            DirectData.num (combinedValueArray.foldl (fun agg cur => agg + asNum cur) 0)
        | CombineMode.concatArrays => DirectData.arr combinedValueArray
      .ok { data := data
            requestCharge := requestCharge
            requestDurationMilliseconds := requestDurationMilliseconds }

/-- A JSON value stored in a document field, as far as the claims need to
distinguish values. -/
inductive JsVal where
  | str : String → JsVal
  | num : ℚ → JsVal
  | boolean : Bool → JsVal
  | null : JsVal
deriving DecidableEq, Repr

/-- A JavaScript document object (`Record<string, unknown>`), modelled as an
assoc list of fields in property order. -/
def Doc : Type := List (String × JsVal)

instance : DecidableEq Doc := by unfold Doc; infer_instance

instance : Repr Doc := by unfold Doc; infer_instance

/-- Property read `doc[k]`: `none` models `undefined`. -/
def docGet (doc : Doc) (k : String) : Option JsVal :=
  match doc with
  | [] => none
  | p :: rest => if p.1 = k then some p.2 else docGet rest k

/-- Property write `doc[k] = v`: overwrite the existing field in place, or
append a new field, leaving every other field untouched. -/
def docSet (doc : Doc) (k : String) (v : JsVal) : Doc :=
  match doc with
  | [] => [(k, v)]
  | p :: rest => if p.1 = k then (k, v) :: rest else p :: docSet rest k v

/-- The in-place mutation performed by createDocument.ts (lines 85..87) and
replaceDocument.ts (lines 51..53):
`if (document.partitionKey !== partition) { document.partitionKey = partition; }`.
JavaScript `!==` on a string right-hand side is inequality with the string
value; an absent property (`undefined`) is unequal to every string. -/
def assignPartitionKey (partition : String) (doc : Doc) : Doc :=
  if docGet doc "partitionKey" ≠ some (JsVal.str partition) then
    docSet doc "partitionKey" (JsVal.str partition)
  else doc

/-- The request headers produced by the header signer. -/
structure CosmosReqHeaders where
  authorizationHeader : String
  xMsDateHeader : String
  xMsVersion : String
deriving DecidableEq, Repr

/-- Symbolic rendering of the HTTP-date formatting of the clock value. -/
def httpDate (now : Nat) : String := "httpdate(" ++ toString now ++ ")"

/-- Symbolic rendering of the HMAC-SHA256 digest. -/
def hmacSign (key msg : String) : String := "hmac(" ++ key ++ "|" ++ msg ++ ")"

/-- Symbolic rendering of base64 encoding. -/
def base64 (s : String) : String := "b64(" ++ s ++ ")"

/-- Symbolic rendering of URL encoding. -/
def urlEncode (s : String) : String := "urlenc(" ++ s ++ ")"

/-- Modelled from the spec: generateCosmosReqHeaders.ts is not among the
provided sources.  Per §4.1 it builds the canonical string from the
lower-cased verb, lower-cased resource type, resource link and lower-cased
HTTP-date of the current time, signs it with the credential, wraps the digest
as `type=master&ver=1.0&sig=...` URL-encoded, and transmits the byte-identical
date in the `x-ms-date` header.  The HMAC/base64/URL-encoding primitives and
the HTTP-date formatting are represented symbolically; what matters for the
claims is that the headers are a pure function of the credential, the request
triple and the clock value `now` read when the signer runs. -/
def generateCosmosReqHeaders (key verb resourceType resourceLink : String) (now : Nat) :
    CosmosReqHeaders :=
  let dateStr := httpDate now
  let canonical :=
    verb.toLower ++ "\n" ++ resourceType.toLower ++ "\n" ++ resourceLink ++ "\n" ++
      dateStr.toLower ++ "\n\n"
  { authorizationHeader := urlEncode ("type=master&ver=1.0&sig=" ++ base64 (hmacSign key canonical))
    xMsDateHeader := dateStr
    xMsVersion := "2018-12-31" }

/-- A request transmitted by one HTTP attempt of a document operation, as far
as the claims inspect it: the two signing headers and the serialized document
body. -/
structure SentRequest where
  authorizationHeader : String
  xMsDateHeader : String
  bodyDoc : Doc
deriving DecidableEq, Repr

/-- Modelled from the spec: `retryable` again (see `runRetry`), here threading
the state mutated by the retried closure (the caller's document object and the
log of transmitted requests) through the attempts.  The closure returns the
state as mutated by the statements executed before its outcome. -/
def runRetryState (isT : JsError → Bool) (attempt : σ → ρ → σ × Except JsError τ) :
    List Nat → σ → List ρ → σ × Except JsError τ × List ρ
  | _, s, [] => (s, .error ⟨false, "no response"⟩, [])
  | delays, s, r :: rest =>
    match attempt s r with
    | (s2, .ok v) => (s2, .ok v, rest)
    | (s2, .error e) =>
      if e.transitory || isT e then
        match delays with
        | [] => (s2, .error e, rest)
        | _ :: ds => runRetryState isT attempt ds s2 rest
      else (s2, .error e, rest)

/-- One HTTP response to a single-document request (get/replace/create), as
far as those operations inspect it. -/
structure DocResponse where
  status : Nat
  requestCharge : ℚ
  requestDurationMs : ℚ
  sessionToken : String
  body : Doc
  bodyText : String
deriving DecidableEq, Repr

/-- The result of getDocument. -/
structure GetDocumentResult where
  doc : Option Doc
  requestCharge : ℚ
  requestDurationMilliseconds : ℚ
deriving DecidableEq, Repr

/-- The closure passed to `cosmosRetryable` by getDocument (src/unnamed
part_005 lines 62..117): raise for transitory statuses, throw a permanent
error for any non-ok status other than 404, read charge and duration from the
response headers, and return `doc: null` for a 404 or the parsed body
otherwise. -/
def getDocumentAttempt (errMsg : String) (r : DocResponse) :
    Except JsError GetDocumentResult :=
  match ensureRaisingOfTransitoryErrors r.status with
  | .error e => .error e
  | .ok _ =>
    if (responseOk r.status = false) ∧ r.status ≠ 404 then
      .error ⟨false, errMsg ++ "\n" ++ r.bodyText⟩
    else
      let requestCharge := r.requestCharge
      let requestDurationMilliseconds := r.requestDurationMs
      if r.status = 404 then
        .ok { doc := none
              requestCharge := requestCharge
              requestDurationMilliseconds := requestDurationMilliseconds }
      else
        .ok { doc := some r.body
              requestCharge := requestCharge
              requestDurationMilliseconds := requestDurationMilliseconds }

/-- From getDocument.ts (src/unnamed part_005): fetch a document by id; the
whole exchange, including the per-attempt header generation, sits inside
`cosmosRetryable`. -/
def getDocument (databaseName collectionName documentId : String)
    (trace : List DocResponse) :
    Except JsError GetDocumentResult × List DocResponse × List Nat :=
  cosmosRetryable
    (getDocumentAttempt
      ("Unable to get document " ++ databaseName ++ "/" ++ collectionName ++ "/" ++
        documentId ++ "."))
    trace

/-- The result of replaceDocument. -/
structure ReplaceDocumentResult where
  didReplace : Bool
  sessionToken : String
  requestCharge : ℚ
  requestDurationMilliseconds : ℚ
deriving DecidableEq, Repr

/-- The JavaScript string interpolation of `document.id` used in resource
links and error messages. -/
def docIdText (doc : Doc) : String :=
  match docGet doc "id" with
  | some (JsVal.str s) => s
  | some (JsVal.num q) => toString q
  | some (JsVal.boolean b) => toString b
  | some JsVal.null => "null"
  | none => "undefined"

/-- The closure passed to `cosmosRetryable` by replaceDocument
(src/src/replaceDocument.ts lines 40..97): assign `document.partitionKey` in
place when it differs from the partition argument, transmit the PUT carrying
the headers generated before the retry wrapper and the serialized document,
raise for transitory statuses, throw a permanent error for any non-ok status
other than 412, and otherwise report `didReplace = response.ok` together with
the session token, charge and duration response headers.  The threaded state
is the caller's document object plus the log of transmitted requests. -/
def replaceDocumentAttempt (reqHeaders : CosmosReqHeaders)
    (databaseName collectionName partition documentId : String)
    (s : Doc × List SentRequest) (r : DocResponse) :
    (Doc × List SentRequest) × Except JsError ReplaceDocumentResult :=
  let doc := assignPartitionKey partition s.1
  let sent := s.2 ++ [{ authorizationHeader := reqHeaders.authorizationHeader
                        xMsDateHeader := reqHeaders.xMsDateHeader
                        bodyDoc := doc }]
  match handleCosmosTransitoryErrors r.status with
  | .error e => ((doc, sent), .error e)
  | .ok _ =>
    if (responseOk r.status = false) ∧ r.status ≠ 412 then
      ((doc, sent),
        .error ⟨false, "Unable to replace document " ++ databaseName ++ "/" ++
          collectionName ++ "/" ++ documentId ++ ".\n" ++ r.bodyText⟩)
    else
      ((doc, sent),
        .ok { didReplace := responseOk r.status
              sessionToken := r.sessionToken
              requestCharge := r.requestCharge
              requestDurationMilliseconds := r.requestDurationMs })

/-- From src/src/replaceDocument.ts: the signing headers are generated once,
before `cosmosRetryable`, at the clock value `now`; every retried attempt then
transmits those same headers.  The optional If-Match and session-token headers
do not influence the modelled control flow and are not represented.  Returns
the final (document, request log) state, the outcome and the unconsumed
trace. -/
def replaceDocument (key databaseName collectionName partition : String)
    (document : Doc) (now : Nat) (trace : List DocResponse) :
    (Doc × List SentRequest) × Except JsError ReplaceDocumentResult × List DocResponse :=
  let reqHeaders :=
    generateCosmosReqHeaders key "PUT" "docs"
      ("dbs/" ++ databaseName ++ "/colls/" ++ collectionName ++ "/docs/" ++
        docIdText document)
      now
  runRetryState isCosmosTransientError
    (replaceDocumentAttempt reqHeaders databaseName collectionName partition
      (docIdText document))
    CosmosDefaultRetryStrategy (document, []) trace

/-- The result of createDocument. -/
structure CreateDocumentResult where
  didCreate : Bool
  sessionToken : String
  requestCharge : ℚ
  requestDurationMilliseconds : ℚ
deriving DecidableEq, Repr

/-- The closure passed to `cosmosRetryable` by createDocument
(src/src/createDocument.ts lines 74..129): assign `document.partitionKey` in
place when it differs, transmit the POST with the pre-generated headers and
the serialized document, raise for transitory statuses, throw a permanent
error on any non-ok status, and otherwise report `didCreate = (status 201)`
with the session token, charge and duration headers. -/
def createDocumentAttempt (reqHeaders : CosmosReqHeaders)
    (databaseName collectionName partition documentId : String)
    (s : Doc × List SentRequest) (r : DocResponse) :
    (Doc × List SentRequest) × Except JsError CreateDocumentResult :=
  let doc := assignPartitionKey partition s.1
  let sent := s.2 ++ [{ authorizationHeader := reqHeaders.authorizationHeader
                        xMsDateHeader := reqHeaders.xMsDateHeader
                        bodyDoc := doc }]
  match handleCosmosTransitoryErrors r.status with
  | .error e => ((doc, sent), .error e)
  | .ok _ =>
    if responseOk r.status = false then
      ((doc, sent),
        .error ⟨false, "Unable to create document " ++ databaseName ++ "/" ++
          collectionName ++ "/" ++ documentId ++ ".\n" ++ r.bodyText⟩)
    else
      ((doc, sent),
        .ok { didCreate := r.status = 201
              sessionToken := r.sessionToken
              requestCharge := r.requestCharge
              requestDurationMilliseconds := r.requestDurationMs })

/-- From src/src/createDocument.ts: as with replaceDocument, the signing
headers are generated once before `cosmosRetryable` at clock value `now`.
The optional upsert and session-token headers are not represented. -/
def createDocument (key databaseName collectionName partition : String)
    (document : Doc) (now : Nat) (trace : List DocResponse) :
    (Doc × List SentRequest) × Except JsError CreateDocumentResult × List DocResponse :=
  let reqHeaders :=
    generateCosmosReqHeaders key "POST" "docs"
      ("dbs/" ++ databaseName ++ "/colls/" ++ collectionName)
      now
  runRetryState isCosmosTransientError
    (createDocumentAttempt reqHeaders databaseName collectionName partition
      (docIdText document))
    CosmosDefaultRetryStrategy (document, []) trace

lemma ensureRaising_ok_of_responseOk (st : Nat) (h : responseOk st = true) :
    ensureRaisingOfTransitoryErrors st = .ok () := by
  simp only [responseOk, Bool.and_eq_true, decide_eq_true_eq] at h
  unfold ensureRaisingOfTransitoryErrors
  rw [if_neg (by omega), if_neg (by omega), if_neg (by omega)]

lemma ensureRaising_ok_of_ne (st : Nat) (h1 : st ≠ 429) (h2 : st ≠ 503) (h3 : st ≠ 504) :
    ensureRaisingOfTransitoryErrors st = .ok () := by
  unfold ensureRaisingOfTransitoryErrors
  rw [if_neg h1, if_neg h2, if_neg h3]

/-- C4: transient-error classification.  A 429, 503 or 504 status raises an
`OperationTransitoryError`, which the retry predicate classifies transient; an
error whose message contains the authentication-token validity-window pattern
is classified transient; any other non-2xx status raises no transitory error,
and the permanent `Error` built from the operation message and the response
body (when that combined message does not contain the pattern) is classified
non-transient, so `cosmosRetryable` propagates it after a single attempt with
no sleeps. -/
theorem claim_C4_transient_classification (st : Nat) (bodyText msgHead : String) (e : JsError) :
    ((st = 429 ∨ st = 503 ∨ st = 504) →
      ∃ e2, ensureRaisingOfTransitoryErrors st = .error e2 ∧ e2.transitory = true ∧
        cosmosIsTransient e2 = true) ∧
    (isCosmosTransientError e = true → cosmosIsTransient e = true) ∧
    (responseOk st = false → st ≠ 429 → st ≠ 503 → st ≠ 504 →
      strIncludes (msgHead ++ "\n" ++ bodyText) authTokenMsg = false →
      ensureRaisingOfTransitoryErrors st = .ok () ∧
      cosmosIsTransient ⟨false, msgHead ++ "\n" ++ bodyText⟩ = false ∧
      ∀ trace : List Unit,
        cosmosRetryable
            (fun _ : Unit =>
              (Except.error ⟨false, msgHead ++ "\n" ++ bodyText⟩ : Except JsError Unit))
            (() :: trace) =
          (.error ⟨false, msgHead ++ "\n" ++ bodyText⟩, trace, [])) := by
  refine ⟨?_, ?_, ?_⟩
  · rintro (rfl | rfl | rfl)
    · exact ⟨_, rfl, rfl, rfl⟩
    · exact ⟨_, rfl, rfl, rfl⟩
    · exact ⟨_, rfl, rfl, rfl⟩
  · intro h
    unfold cosmosIsTransient
    rw [h, Bool.or_true]
  · intro _ h1 h2 h3 h5
    refine ⟨ensureRaising_ok_of_ne st h1 h2 h3, ?_, ?_⟩
    · unfold cosmosIsTransient isCosmosTransientError
      simpa using h5
    · intro trace
      unfold cosmosRetryable CosmosDefaultRetryStrategy
      simp [runRetry, isCosmosTransientError, h5]

/-- Closed instance of C4: a 429 raises a transitory error; a 400 with a
non-matching body raises no transitory error and its permanent error is not
retried. -/
theorem claim_C4_witness :
    (∃ e2, ensureRaisingOfTransitoryErrors 429 = .error e2 ∧ e2.transitory = true ∧
      cosmosIsTransient e2 = true) ∧
    (ensureRaisingOfTransitoryErrors 400 = .ok () ∧
      cosmosIsTransient ⟨false, "m" ++ "\n" ++ "b"⟩ = false ∧
      ∀ trace : List Unit,
        cosmosRetryable
            (fun _ : Unit => (Except.error ⟨false, "m" ++ "\n" ++ "b"⟩ : Except JsError Unit))
            (() :: trace) =
          (.error ⟨false, "m" ++ "\n" ++ "b"⟩, trace, [])) :=
  ⟨(claim_C4_transient_classification 429 "b" "m" ⟨false, ""⟩).1 (Or.inl rfl),
   (claim_C4_transient_classification 400 "b" "m" ⟨false, ""⟩).2.2 (by decide) (by decide)
     (by decide) (by decide) (by decide)⟩

lemma runRetry_always_err (isT : JsError → Bool) :
    ∀ (delays : List Nat) (es : List JsError) (elast : JsError) (rest : List JsError),
      es.length = delays.length →
      (∀ e ∈ es ++ [elast], (e.transitory || isT e) = true) →
      runRetry isT (fun e => (.error e : Except JsError Unit)) delays (es ++ elast :: rest) =
        (.error elast, rest, delays) := by
  intro delays
  induction delays with
  | nil =>
    intro es elast rest hlen hall
    have hes : es = [] := List.length_eq_zero.mp hlen
    subst hes
    have h1 : (elast.transitory || isT elast) = true := hall elast (by simp)
    simp [runRetry, h1]
  | cons d ds ih =>
    intro es elast rest hlen hall
    cases es with
    | nil => simp at hlen
    | cons e es' =>
      have h1 : (e.transitory || isT e) = true := hall e (by simp)
      have h2 := ih es' elast rest (by simpa using hlen)
        (fun x hx => hall x (by simp at hx ⊢; tauto))
      rw [List.cons_append]
      simp only [runRetry, h1, if_true]
      rw [h2]

/-- C5: the default retry policy of `cosmosRetryable` is exactly the ordered
delay list 100, 200, 300, 400, 500, 1000, 2000, 3000, 5000 ms (cumulative
12500 ms); an operation raising a transient error on the initial attempt and
on all nine allotted retries sleeps those delays in order, none skipped or
reordered, and ultimately propagates the last transient error unchanged. -/
theorem claim_C5_default_retry_policy :
    CosmosDefaultRetryStrategy = [100, 200, 300, 400, 500, 1000, 2000, 3000, 5000] ∧
    CosmosDefaultRetryStrategy.sum = 12500 ∧
    ∀ (es : List JsError) (elast : JsError) (rest : List JsError),
      es.length = 9 →
      (∀ e ∈ es ++ [elast], cosmosIsTransient e = true) →
      cosmosRetryable (fun e => (.error e : Except JsError Unit)) (es ++ elast :: rest) =
        (.error elast, rest, CosmosDefaultRetryStrategy) := by
  refine ⟨rfl, by decide, ?_⟩
  intro es elast rest hlen hall
  exact runRetry_always_err isCosmosTransientError CosmosDefaultRetryStrategy es elast rest
    (by rw [hlen]; rfl) (fun e he => hall e he)

/-- Closed instance of C5: ten consecutive transient failures consume all nine
delays in order and surface the tenth (last) error. -/
theorem claim_C5_witness :
    cosmosRetryable (fun e => (.error e : Except JsError Unit))
        (List.replicate 9 ⟨true, "Too many requests."⟩ ++ ⟨true, "Gateway time-out."⟩ :: []) =
      (.error ⟨true, "Gateway time-out."⟩, [], CosmosDefaultRetryStrategy) :=
  (claim_C5_default_retry_policy.2.2 (List.replicate 9 ⟨true, "Too many requests."⟩)
    ⟨true, "Gateway time-out."⟩ [] (by decide) (by decide))

/-- C9: for every cross-partition query invocation the partition key ranges
are resolved by a single signed GET executed within that invocation — the
resolver takes no state other than that call's response trace, so nothing is
cached across invocations — and each range is composed as
`resourceId,rangeId` (the collection's `_rid`, a comma, the range id),
preserving the order in which the service returned the ranges; nothing else
is consumed from the trace and no backoff delay is slept. -/
theorem claim_C9_pk_range_resolution (databaseName collectionName : String)
    (pkr : PkRangesResponse) (rest : List PkRangesResponse)
    (h : responseOk pkr.status = true) :
    getPkRangesForContainer databaseName collectionName (pkr :: rest) =
      (.ok (pkr.partitionKeyRanges.map (fun pkrId => pkr.rid ++ "," ++ pkrId)), rest, []) := by
  unfold getPkRangesForContainer cosmosRetryable CosmosDefaultRetryStrategy
  simp [runRetry, getPkRangesAttempt, ensureRaising_ok_of_responseOk _ h, h]

/-- Closed instance of C9: a two-range response resolves to the two composite
ids in service order. -/
theorem claim_C9_witness :
    getPkRangesForContainer "db" "coll" [⟨200, "rid1", ["0", "1"], ""⟩] =
      (.ok ["rid1" ++ "," ++ "0", "rid1" ++ "," ++ "1"], [], []) :=
  claim_C9_pk_range_resolution "db" "coll" ⟨200, "rid1", ["0", "1"], ""⟩ [] (by decide)

/-- C6: a 404 response to getDocument yields `doc = null` with no error
raised, and a 412 response to replaceDocument yields `didReplace = false`
with no error raised; both results still carry the request charge and
duration parsed from the response headers, and neither costs a retry. -/
theorem claim_C6_absence_semantics (databaseName collectionName documentId : String)
    (r : DocResponse) (rest : List DocResponse)
    (key db2 coll2 partition : String) (document : Doc) (now : Nat)
    (r2 : DocResponse) (rest2 : List DocResponse) :
    (r.status = 404 →
      getDocument databaseName collectionName documentId (r :: rest) =
        (.ok ⟨none, r.requestCharge, r.requestDurationMs⟩, rest, [])) ∧
    (r2.status = 412 →
      (replaceDocument key db2 coll2 partition document now (r2 :: rest2)).2 =
        (.ok ⟨false, r2.sessionToken, r2.requestCharge, r2.requestDurationMs⟩, rest2)) := by
  constructor
  · intro h
    unfold getDocument cosmosRetryable CosmosDefaultRetryStrategy
    simp [runRetry, getDocumentAttempt, ensureRaisingOfTransitoryErrors, responseOk, h]
  · intro h2
    unfold replaceDocument runRetryState
    simp [replaceDocumentAttempt, handleCosmosTransitoryErrors,
      ensureRaisingOfTransitoryErrors, responseOk, h2]

/-- Closed instance of C6: concrete 404 and 412 responses. -/
theorem claim_C6_witness :
    (getDocument "db" "coll" "001" [⟨404, 2, 3, "tok", [], "missing"⟩] =
      (.ok ⟨none, 2, 3⟩, [], [])) ∧
    ((replaceDocument "key" "db" "coll" "pt" [("id", JsVal.str "001")] 7
        [⟨412, 2, 3, "tok", [], "mismatch"⟩]).2 =
      (.ok ⟨false, "tok", 2, 3⟩, [])) :=
  ⟨(claim_C6_absence_semantics "db" "coll" "001" ⟨404, 2, 3, "tok", [], "missing"⟩ []
      "key" "db" "coll" "pt" [("id", JsVal.str "001")] 7
      ⟨412, 2, 3, "tok", [], "mismatch"⟩ []).1 rfl,
   (claim_C6_absence_semantics "db" "coll" "001" ⟨404, 2, 3, "tok", [], "missing"⟩ []
      "key" "db" "coll" "pt" [("id", JsVal.str "001")] 7
      ⟨412, 2, 3, "tok", [], "mismatch"⟩ []).2 rfl⟩

/-- C1 failing input: src/src/replaceDocument.ts generates the signing headers
once, before `cosmosRetryable`, so when the first attempt fails with a 429 and
is retried, the second attempt transmits exactly the same `x-ms-date` (and
`Authorization`) header — the timestamp of the single signer invocation at
call time 5 — rather than freshly generated headers.  The claim's "Header
Signer invoked exactly once per attempt, inside the retried operation" fails
here: it is invoked once per call, outside the retried operation. -/
theorem claim_C1_replaceDocument_reuses_headers :
    ((replaceDocument "masterkey" "db" "coll" "pt" [("id", JsVal.str "001")] 5
        [⟨429, 1, 1, "tok", [], "busy"⟩, ⟨200, 1, 1, "tok", [], ""⟩]).1.2.map
        (fun q => q.xMsDateHeader)) = [httpDate 5, httpDate 5] := by
  decide

lemma docGet_docSet_self (d : Doc) (k : String) (v : JsVal) :
    docGet (docSet d k v) k = some v := by
  induction d with
  | nil => simp [docSet, docGet]
  | cons p rest ih =>
    by_cases h : p.1 = k
    · simp [docSet, h, docGet]
    · simp [docSet, h, docGet, ih]

lemma docGet_docSet_other (d : Doc) (k : String) (v : JsVal) (k' : String) (h : k' ≠ k) :
    docGet (docSet d k v) k' = docGet d k' := by
  induction d with
  | nil =>
    simp only [docSet, docGet]
    rw [if_neg (Ne.symm h)]
  | cons p rest ih =>
    by_cases hp : p.1 = k
    · simp only [docSet, if_pos hp, docGet]
      rw [if_neg (Ne.symm h), if_neg (fun hc : p.1 = k' => h (hc.symm.trans hp))]
    · simp only [docSet, if_neg hp, docGet]
      by_cases hpk : p.1 = k'
      · rw [if_pos hpk, if_pos hpk]
      · rw [if_neg hpk, if_neg hpk, ih]

lemma assignPartitionKey_get (p : String) (d : Doc) :
    docGet (assignPartitionKey p d) "partitionKey" = some (JsVal.str p) := by
  unfold assignPartitionKey
  by_cases h : docGet d "partitionKey" ≠ some (JsVal.str p)
  · rw [if_pos h]
    exact docGet_docSet_self d "partitionKey" (JsVal.str p)
  · rw [if_neg h]
    exact not_ne_iff.mp h

lemma assignPartitionKey_of_eq (p : String) (d : Doc)
    (h : docGet d "partitionKey" = some (JsVal.str p)) : assignPartitionKey p d = d := by
  unfold assignPartitionKey
  rw [if_neg (not_ne_iff.mpr h)]

lemma assignPartitionKey_idem (p : String) (d : Doc) :
    assignPartitionKey p (assignPartitionKey p d) = assignPartitionKey p d :=
  assignPartitionKey_of_eq p _ (assignPartitionKey_get p d)

lemma runRetryState_docLog (isT : JsError → Bool) {ρ τ : Type}
    (attempt : (Doc × List SentRequest) → ρ → (Doc × List SentRequest) × Except JsError τ)
    (p : String)
    (hstate : ∀ s r, ((attempt s r).1).1 = assignPartitionKey p s.1 ∧
      ∀ q ∈ ((attempt s r).1).2, q ∈ s.2 ∨ q.bodyDoc = assignPartitionKey p s.1) :
    ∀ (trace : List ρ) (delays : List Nat) (d0 : Doc) (log0 : List SentRequest),
      (trace ≠ [] →
        ((runRetryState isT attempt delays (d0, log0) trace).1).1 = assignPartitionKey p d0) ∧
      (trace = [] → (runRetryState isT attempt delays (d0, log0) trace).1 = (d0, log0)) ∧
      (∀ q ∈ ((runRetryState isT attempt delays (d0, log0) trace).1).2,
        q ∈ log0 ∨ q.bodyDoc = assignPartitionKey p d0) := by
  intro trace
  induction trace with
  | nil =>
    intro delays d0 log0
    refine ⟨fun h => absurd rfl h, fun _ => by simp [runRetryState], ?_⟩
    intro q hq
    exact Or.inl (by simpa [runRetryState] using hq)
  | cons r rest ih =>
    intro delays d0 log0
    rcases ha : attempt (d0, log0) r with ⟨⟨d1, log1⟩, out⟩
    have hd1 : d1 = assignPartitionKey p d0 := by
      have := (hstate (d0, log0) r).1
      rw [ha] at this
      exact this
    have hl1 : ∀ q ∈ log1, q ∈ log0 ∨ q.bodyDoc = assignPartitionKey p d0 := by
      have := (hstate (d0, log0) r).2
      rw [ha] at this
      exact this
    cases out with
    | ok v =>
      refine ⟨fun _ => ?_, fun h => absurd h (by simp), fun q hq => ?_⟩
      · simp only [runRetryState, ha]
        exact hd1
      · simp only [runRetryState, ha] at hq
        exact hl1 q hq
    | error e =>
      by_cases ht : (e.transitory || isT e) = true
      · cases delays with
        | nil =>
          refine ⟨fun _ => ?_, fun h => absurd h (by simp), fun q hq => ?_⟩
          · simp only [runRetryState, ha, ht, if_true]
            exact hd1
          · simp only [runRetryState, ha, ht, if_true] at hq
            exact hl1 q hq
        | cons d ds =>
          have hrec :
              runRetryState isT attempt (d :: ds) (d0, log0) (r :: rest) =
                runRetryState isT attempt ds (d1, log1) rest := by
            simp only [runRetryState, ha, ht, if_true]
          refine ⟨fun _ => ?_, fun h => absurd h (by simp), fun q hq => ?_⟩
          · rw [hrec]
            by_cases hrest : rest = []
            · rw [(ih ds d1 log1).2.1 hrest]
              exact hd1
            · rw [(ih ds d1 log1).1 hrest, hd1]
              exact assignPartitionKey_idem p d0
          · rw [hrec] at hq
            rcases (ih ds d1 log1).2.2 q hq with hmem | hbody
            · exact hl1 q hmem
            · rw [hd1, assignPartitionKey_idem p d0] at hbody
              exact Or.inr hbody
      · refine ⟨fun _ => ?_, fun h => absurd h (by simp), fun q hq => ?_⟩
        · simp only [runRetryState, ha, ht, if_false]
          exact hd1
        · simp only [runRetryState, ha, ht, if_false] at hq
          exact hl1 q hq

lemma docLogPair_spec (p : String) (s : Doc × List SentRequest) (auth date : String) :
    ((assignPartitionKey p s.1,
        s.2 ++ [{ authorizationHeader := auth, xMsDateHeader := date,
                  bodyDoc := assignPartitionKey p s.1 }]) :
        Doc × List SentRequest).1 = assignPartitionKey p s.1 ∧
    ∀ q ∈ ((assignPartitionKey p s.1,
        s.2 ++ [{ authorizationHeader := auth, xMsDateHeader := date,
                  bodyDoc := assignPartitionKey p s.1 }]) :
        Doc × List SentRequest).2,
      q ∈ s.2 ∨ q.bodyDoc = assignPartitionKey p s.1 := by
  refine ⟨rfl, ?_⟩
  intro q hq
  rcases List.mem_append.mp hq with hmem | hmem
  · exact Or.inl hmem
  · simp only [List.mem_singleton] at hmem
    subst hmem
    exact Or.inr rfl

lemma replaceDocumentAttempt_fst (reqHeaders : CosmosReqHeaders)
    (databaseName collectionName partition documentId : String)
    (s : Doc × List SentRequest) (r : DocResponse) :
    (replaceDocumentAttempt reqHeaders databaseName collectionName partition documentId s r).1 =
      (assignPartitionKey partition s.1,
       s.2 ++ [{ authorizationHeader := reqHeaders.authorizationHeader,
                 xMsDateHeader := reqHeaders.xMsDateHeader,
                 bodyDoc := assignPartitionKey partition s.1 }]) := by
  unfold replaceDocumentAttempt
  cases handleCosmosTransitoryErrors r.status with
  | error e => rfl
  | ok u =>
    by_cases hcond : (responseOk r.status = false) ∧ r.status ≠ 412
    · simp only [if_pos hcond]
    · simp only [if_neg hcond]

lemma createDocumentAttempt_fst (reqHeaders : CosmosReqHeaders)
    (databaseName collectionName partition documentId : String)
    (s : Doc × List SentRequest) (r : DocResponse) :
    (createDocumentAttempt reqHeaders databaseName collectionName partition documentId s r).1 =
      (assignPartitionKey partition s.1,
       s.2 ++ [{ authorizationHeader := reqHeaders.authorizationHeader,
                 xMsDateHeader := reqHeaders.xMsDateHeader,
                 bodyDoc := assignPartitionKey partition s.1 }]) := by
  unfold createDocumentAttempt
  cases handleCosmosTransitoryErrors r.status with
  | error e => rfl
  | ok u =>
    by_cases hcond : responseOk r.status = false
    · simp only [if_pos hcond]
    · simp only [if_neg hcond]

lemma replaceDocumentAttempt_state (reqHeaders : CosmosReqHeaders)
    (databaseName collectionName partition documentId : String)
    (s : Doc × List SentRequest) (r : DocResponse) :
    ((replaceDocumentAttempt reqHeaders databaseName collectionName partition documentId s r).1).1 =
      assignPartitionKey partition s.1 ∧
    ∀ q ∈ ((replaceDocumentAttempt reqHeaders databaseName collectionName partition documentId s r).1).2,
      q ∈ s.2 ∨ q.bodyDoc = assignPartitionKey partition s.1 := by
  rw [replaceDocumentAttempt_fst]
  exact docLogPair_spec partition s reqHeaders.authorizationHeader reqHeaders.xMsDateHeader

lemma createDocumentAttempt_state (reqHeaders : CosmosReqHeaders)
    (databaseName collectionName partition documentId : String)
    (s : Doc × List SentRequest) (r : DocResponse) :
    ((createDocumentAttempt reqHeaders databaseName collectionName partition documentId s r).1).1 =
      assignPartitionKey partition s.1 ∧
    ∀ q ∈ ((createDocumentAttempt reqHeaders databaseName collectionName partition documentId s r).1).2,
      q ∈ s.2 ∨ q.bodyDoc = assignPartitionKey partition s.1 := by
  rw [createDocumentAttempt_fst]
  exact docLogPair_spec partition s reqHeaders.authorizationHeader reqHeaders.xMsDateHeader

/-- C10: when the caller-supplied document's `partitionKey` field differs from
the `partition` argument, createDocument and replaceDocument assign
`document.partitionKey = partition` on the caller's document object itself
before serializing the request body; the mutation is visible in the document
state after the call (whatever the outcome of the attempts) while every other
field is left unchanged, and every transmitted request body serializes the
mutated document. -/
theorem claim_C10_partition_key_mutation (key databaseName collectionName partition : String)
    (document : Doc) (now : Nat) (r : DocResponse) (rest : List DocResponse)
    (hdiff : docGet document "partitionKey" ≠ some (JsVal.str partition)) :
    (((createDocument key databaseName collectionName partition document now (r :: rest)).1).1 =
        docSet document "partitionKey" (JsVal.str partition) ∧
      docGet (((createDocument key databaseName collectionName partition document now (r :: rest)).1).1)
          "partitionKey" = some (JsVal.str partition) ∧
      (∀ k, k ≠ "partitionKey" →
        docGet (((createDocument key databaseName collectionName partition document now (r :: rest)).1).1) k =
          docGet document k) ∧
      (∀ q ∈ ((createDocument key databaseName collectionName partition document now (r :: rest)).1).2,
        q.bodyDoc = docSet document "partitionKey" (JsVal.str partition))) ∧
    (((replaceDocument key databaseName collectionName partition document now (r :: rest)).1).1 =
        docSet document "partitionKey" (JsVal.str partition) ∧
      docGet (((replaceDocument key databaseName collectionName partition document now (r :: rest)).1).1)
          "partitionKey" = some (JsVal.str partition) ∧
      (∀ k, k ≠ "partitionKey" →
        docGet (((replaceDocument key databaseName collectionName partition document now (r :: rest)).1).1) k =
          docGet document k) ∧
      (∀ q ∈ ((replaceDocument key databaseName collectionName partition document now (r :: rest)).1).2,
        q.bodyDoc = docSet document "partitionKey" (JsVal.str partition))) := by
  have hassign : assignPartitionKey partition document =
      docSet document "partitionKey" (JsVal.str partition) := by
    unfold assignPartitionKey
    rw [if_pos hdiff]
  constructor
  · have hrun := runRetryState_docLog isCosmosTransientError
      (createDocumentAttempt
        (generateCosmosReqHeaders key "POST" "docs"
          ("dbs/" ++ databaseName ++ "/colls/" ++ collectionName) now)
        databaseName collectionName partition (docIdText document))
      partition
      (fun s r2 => createDocumentAttempt_state _ databaseName collectionName partition _ s r2)
      (r :: rest) CosmosDefaultRetryStrategy document []
    have hdocEq :
        ((createDocument key databaseName collectionName partition document now (r :: rest)).1).1 =
          docSet document "partitionKey" (JsVal.str partition) := by
      rw [show (createDocument key databaseName collectionName partition document now (r :: rest)) =
        runRetryState isCosmosTransientError
          (createDocumentAttempt
            (generateCosmosReqHeaders key "POST" "docs"
              ("dbs/" ++ databaseName ++ "/colls/" ++ collectionName) now)
            databaseName collectionName partition (docIdText document))
          CosmosDefaultRetryStrategy (document, []) (r :: rest) from rfl]
      rw [hrun.1 (by simp), hassign]
    refine ⟨hdocEq, ?_, ?_, ?_⟩
    · rw [hdocEq]
      exact docGet_docSet_self document "partitionKey" (JsVal.str partition)
    · intro k hk
      rw [hdocEq]
      exact docGet_docSet_other document "partitionKey" (JsVal.str partition) k hk
    · intro q hq
      rcases hrun.2.2 q hq with hmem | hbody
      · simp at hmem
      · rw [hbody, hassign]
  · have hrun := runRetryState_docLog isCosmosTransientError
      (replaceDocumentAttempt
        (generateCosmosReqHeaders key "PUT" "docs"
          ("dbs/" ++ databaseName ++ "/colls/" ++ collectionName ++ "/docs/" ++
            docIdText document) now)
        databaseName collectionName partition (docIdText document))
      partition
      (fun s r2 => replaceDocumentAttempt_state _ databaseName collectionName partition _ s r2)
      (r :: rest) CosmosDefaultRetryStrategy document []
    have hdocEq :
        ((replaceDocument key databaseName collectionName partition document now (r :: rest)).1).1 =
          docSet document "partitionKey" (JsVal.str partition) := by
      rw [show (replaceDocument key databaseName collectionName partition document now (r :: rest)) =
        runRetryState isCosmosTransientError
          (replaceDocumentAttempt
            (generateCosmosReqHeaders key "PUT" "docs"
              ("dbs/" ++ databaseName ++ "/colls/" ++ collectionName ++ "/docs/" ++
                docIdText document) now)
            databaseName collectionName partition (docIdText document))
          CosmosDefaultRetryStrategy (document, []) (r :: rest) from rfl]
      rw [hrun.1 (by simp), hassign]
    refine ⟨hdocEq, ?_, ?_, ?_⟩
    · rw [hdocEq]
      exact docGet_docSet_self document "partitionKey" (JsVal.str partition)
    · intro k hk
      rw [hdocEq]
      exact docGet_docSet_other document "partitionKey" (JsVal.str partition) k hk
    · intro q hq
      rcases hrun.2.2 q hq with hmem | hbody
      · simp at hmem
      · rw [hbody, hassign]

/-- Closed instance of C10: a document without a `partitionKey` field gains
one while its other fields are untouched. -/
theorem claim_C10_witness :
    ((createDocument "key" "db" "coll" "pt" [("id", JsVal.str "001")] 3
        [⟨201, 1, 1, "tok", [], ""⟩]).1).1 =
      docSet [("id", JsVal.str "001")] "partitionKey" (JsVal.str "pt") ∧
    docGet (((replaceDocument "key" "db" "coll" "pt" [("id", JsVal.str "001")] 3
        [⟨200, 1, 1, "tok", [], ""⟩]).1).1) "partitionKey" = some (JsVal.str "pt") :=
  ⟨(claim_C10_partition_key_mutation "key" "db" "coll" "pt" [("id", JsVal.str "001")] 3
      ⟨201, 1, 1, "tok", [], ""⟩ [] (by decide)).1.1,
   (claim_C10_partition_key_mutation "key" "db" "coll" "pt" [("id", JsVal.str "001")] 3
      ⟨200, 1, 1, "tok", [], ""⟩ [] (by decide)).2.2.1⟩

/-- The accumulator produced by one successful page attempt: the success
branch of `pageQueryAttempt`. -/
def pageStep (s : QueryAccum α) (r : PageResponse α) : QueryAccum α :=
  { records := s.records ++ r.documents
    continuationToken := r.continuation
    requestCharge := s.requestCharge + r.requestCharge
    requestDurationMilliseconds := s.requestDurationMilliseconds + r.requestDurationMs
    isAllRecordsLoaded := if tokenFalsy r.continuation then true else s.isAllRecordsLoaded }

lemma pageQueryAttempt_ok (msg : String) (s : QueryAccum α) (r : PageResponse α)
    (h : responseOk r.status = true) :
    pageQueryAttempt msg s r = .ok (pageStep s r) := by
  unfold pageQueryAttempt pageStep
  rw [ensureRaising_ok_of_responseOk r.status h]
  simp [h]

/-- The error raised by one page attempt on the given response, if any; it
does not depend on the accumulator state. -/
def attemptFailureOf (msg : String) (r : PageResponse α) : Option JsError :=
  match ensureRaisingOfTransitoryErrors r.status with
  | .error e => some e
  | .ok _ =>
    if responseOk r.status = false then some ⟨false, msg ++ "\n" ++ r.bodyText⟩ else none

lemma pageQueryAttempt_error (msg : String) (r : PageResponse α) (e : JsError)
    (h : attemptFailureOf msg r = some e) (s : QueryAccum α) :
    pageQueryAttempt msg s r = .error e := by
  unfold attemptFailureOf at h
  unfold pageQueryAttempt
  cases hE : ensureRaisingOfTransitoryErrors r.status with
  | error e2 =>
    rw [hE] at h
    simp only [Option.some.injEq] at h
    subst h
    rfl
  | ok u =>
    rw [hE] at h
    by_cases hok : responseOk r.status = false
    · rw [if_pos hok] at h
      simp only [Option.some.injEq] at h
      subst h
      simp [hok]
    · rw [if_neg hok] at h
      exact absurd h (by simp)

/-- A response on which a page attempt fails with an error the retry predicate
classifies transient. -/
def transientFailing (msg : String) (r : PageResponse α) : Bool :=
  match attemptFailureOf msg r with
  | some e => cosmosIsTransient e
  | none => false

lemma transientFailing_spec (msg : String) (r : PageResponse α)
    (h : transientFailing msg r = true) :
    ∃ e, attemptFailureOf msg r = some e ∧ (e.transitory || isCosmosTransientError e) = true := by
  unfold transientFailing at h
  cases hA : attemptFailureOf msg r with
  | none => rw [hA] at h; simp at h
  | some e =>
    rw [hA] at h
    simp only at h
    refine ⟨e, rfl, ?_⟩
    unfold cosmosIsTransient at h
    exact h

lemma runRetry_skip {ρ σ : Type} (isT : JsError → Bool) (att : ρ → Except JsError σ) :
    ∀ (fails : List ρ) (delays : List Nat) (rest : List ρ),
      (∀ b ∈ fails, ∃ e, att b = .error e ∧ (e.transitory || isT e) = true) →
      fails.length ≤ delays.length →
      runRetry isT att delays (fails ++ rest) =
        ((runRetry isT att (delays.drop fails.length) rest).1,
         (runRetry isT att (delays.drop fails.length) rest).2.1,
         delays.take fails.length ++ (runRetry isT att (delays.drop fails.length) rest).2.2) := by
  intro fails
  induction fails with
  | nil =>
    intro delays rest _ _
    simp only [List.nil_append, List.length_nil, List.drop_zero, List.take_zero]
  | cons b fails' ih =>
    intro delays rest hf hlen
    cases delays with
    | nil => simp at hlen
    | cons d ds =>
      obtain ⟨e, he, ht⟩ := hf b (by simp)
      rw [List.cons_append]
      simp only [runRetry, he, ht, if_true]
      rw [ih ds rest (fun x hx => hf x (by simp [hx])) (by simpa using hlen)]
      simp [List.cons_append]

lemma cosmosRetryable_page (msg : String) (s : QueryAccum α)
    (fails : List (PageResponse α)) (r : PageResponse α) (rest : List (PageResponse α))
    (hf : ∀ b ∈ fails, transientFailing msg b = true)
    (hlen : fails.length ≤ CosmosDefaultRetryStrategy.length)
    (hok : responseOk r.status = true) :
    cosmosRetryable (pageQueryAttempt msg s) (fails ++ r :: rest) =
      (.ok (pageStep s r), rest, CosmosDefaultRetryStrategy.take fails.length) := by
  unfold cosmosRetryable
  rw [runRetry_skip isCosmosTransientError (pageQueryAttempt msg s) fails
      CosmosDefaultRetryStrategy (r :: rest)
      (fun b hb => by
        obtain ⟨e, hA, ht⟩ := transientFailing_spec msg b (hf b hb)
        exact ⟨e, pageQueryAttempt_error msg b e hA s, ht⟩)
      hlen]
  have hhead : runRetry isCosmosTransientError (pageQueryAttempt msg s)
      (CosmosDefaultRetryStrategy.drop fails.length) (r :: rest) =
        (.ok (pageStep s r), rest, []) := by
    simp [runRetry, pageQueryAttempt_ok msg s r hok]
  rw [hhead]
  simp

lemma queryLoopFuel_step_ok (msg : String) (f : Nat) (s s2 : QueryAccum α)
    (trace rest : List (PageResponse α)) (slept : List Nat)
    (hs : s.isAllRecordsLoaded = false)
    (h : cosmosRetryable (pageQueryAttempt msg s) trace = (.ok s2, rest, slept)) :
    queryLoopFuel msg (f + 1) s trace = queryLoopFuel msg f s2 rest := by
  simp only [queryLoopFuel, hs, Bool.false_eq_true, if_false]
  rw [h]

lemma queryLoopFuel_done (msg : String) (f : Nat) (s : QueryAccum α)
    (trace : List (PageResponse α)) (hs : s.isAllRecordsLoaded = true) :
    queryLoopFuel msg (f + 1) s trace = (.ok s, trace) := by
  simp [queryLoopFuel, hs]

/-- The successful page of each entry in a per-page environment (each entry is
the list of failing responses served before that page, paired with the page's
successful response). -/
def pagesOf (env : List (List (PageResponse α) × PageResponse α)) : List (PageResponse α) :=
  env.map Prod.snd

/-- The flattened response trace of a per-page environment: for each page, its
failing responses followed by its successful response. -/
def flatTrace (env : List (List (PageResponse α) × PageResponse α)) : List (PageResponse α) :=
  (env.map (fun p => p.1 ++ [p.2])).flatten

lemma length_le_flatTrace (env : List (List (PageResponse α) × PageResponse α)) :
    env.length ≤ (flatTrace env).length := by
  induction env with
  | nil => simp [flatTrace]
  | cons p rest ih =>
    simp only [flatTrace, List.map_cons, List.flatten_cons, List.length_append,
      List.length_cons] at ih ⊢
    omega

lemma queryLoopFuel_run (msg : String) :
    ∀ (fmids : List (List (PageResponse α) × PageResponse α))
      (flast : List (PageResponse α) × PageResponse α)
      (extra : List (PageResponse α)) (s : QueryAccum α) (fuel : Nat),
      fmids.length + 2 ≤ fuel →
      s.isAllRecordsLoaded = false →
      (∀ p ∈ fmids ++ [flast],
        (∀ b ∈ p.1, transientFailing msg b = true) ∧
        p.1.length ≤ CosmosDefaultRetryStrategy.length ∧
        responseOk p.2.status = true) →
      (∀ p ∈ fmids, tokenFalsy p.2.continuation = false) →
      tokenFalsy flast.2.continuation = true →
      queryLoopFuel msg fuel s (flatTrace (fmids ++ [flast]) ++ extra) =
        (.ok { records :=
                 s.records ++ ((pagesOf (fmids ++ [flast])).map PageResponse.documents).flatten
               continuationToken := flast.2.continuation
               requestCharge :=
                 s.requestCharge + ((pagesOf (fmids ++ [flast])).map PageResponse.requestCharge).sum
               requestDurationMilliseconds :=
                 s.requestDurationMilliseconds +
                   ((pagesOf (fmids ++ [flast])).map PageResponse.requestDurationMs).sum
               isAllRecordsLoaded := true }, extra) := by
  intro fmids
  induction fmids with
  | nil =>
    intro flast extra s fuel hfuel hs hfail hmid hlast
    obtain ⟨f, rfl⟩ : ∃ f, fuel = f + 1 := ⟨fuel - 1, by omega⟩
    obtain ⟨hbf, hbl, hbo⟩ := hfail flast (by simp)
    have htr : flatTrace ([] ++ [flast]) ++ extra = flast.1 ++ (flast.2 :: extra) := by
      simp [flatTrace]
    rw [htr,
      queryLoopFuel_step_ok msg f s (pageStep s flast.2) _ extra _ hs
        (cosmosRetryable_page msg s flast.1 flast.2 extra hbf hbl hbo)]
    obtain ⟨f2, rfl⟩ : ∃ f2, f = f2 + 1 := ⟨f - 1, by omega⟩
    rw [queryLoopFuel_done msg f2 (pageStep s flast.2) extra (by simp [pageStep, hlast])]
    simp [pageStep, pagesOf, hlast]
  | cons q fmids' ih =>
    intro flast extra s fuel hfuel hs hfail hmid hlast
    obtain ⟨f, rfl⟩ : ∃ f, fuel = f + 1 := ⟨fuel - 1, by omega⟩
    obtain ⟨hbf, hbl, hbo⟩ := hfail q (by simp)
    have htr : flatTrace ((q :: fmids') ++ [flast]) ++ extra =
        q.1 ++ (q.2 :: (flatTrace (fmids' ++ [flast]) ++ extra)) := by
      simp [flatTrace]
    rw [htr,
      queryLoopFuel_step_ok msg f s (pageStep s q.2) _ _ _ hs
        (cosmosRetryable_page msg s q.1 q.2 _ hbf hbl hbo)]
    have hloaded : (pageStep s q.2).isAllRecordsLoaded = false := by
      simp [pageStep, hmid q (by simp), hs]
    rw [ih flast extra (pageStep s q.2) f (by simp at hfuel ⊢; omega) hloaded
      (fun p hp => hfail p (by simp at hp ⊢; tauto))
      (fun p hp => hmid p (by simp [hp])) hlast]
    simp [pageStep, pagesOf, List.append_assoc, add_assoc]

lemma runPagedQuery_run (msg : String)
    (fmids : List (List (PageResponse α) × PageResponse α))
    (flast : List (PageResponse α) × PageResponse α)
    (extra : List (PageResponse α))
    (hfail : ∀ p ∈ fmids ++ [flast],
      (∀ b ∈ p.1, transientFailing msg b = true) ∧
      p.1.length ≤ CosmosDefaultRetryStrategy.length ∧
      responseOk p.2.status = true)
    (hmid : ∀ p ∈ fmids, tokenFalsy p.2.continuation = false)
    (hlast : tokenFalsy flast.2.continuation = true) :
    runPagedQuery msg (flatTrace (fmids ++ [flast]) ++ extra) =
      (.ok ⟨((pagesOf (fmids ++ [flast])).map PageResponse.documents).flatten,
            ((pagesOf (fmids ++ [flast])).map PageResponse.requestCharge).sum,
            ((pagesOf (fmids ++ [flast])).map PageResponse.requestDurationMs).sum⟩, extra) := by
  unfold runPagedQuery
  have hfuel : fmids.length + 2 ≤ (flatTrace (fmids ++ [flast]) ++ extra).length + 1 := by
    have h1 := length_le_flatTrace (fmids ++ [flast])
    simp only [List.length_append, List.length_cons, List.length_nil] at h1 ⊢
    omega
  rw [queryLoopFuel_run msg fmids flast extra initialAccum _ hfuel rfl hfail hmid hlast]
  simp [pagedResultOf, initialAccum]

lemma flatTrace_clean (mids : List (PageResponse α)) (last : PageResponse α) :
    flatTrace (mids.map (fun m => (([] : List (PageResponse α)), m)) ++
        [(([] : List (PageResponse α)), last)]) = mids ++ [last] := by
  induction mids with
  | nil => simp [flatTrace]
  | cons m rest ih => simpa [flatTrace] using ih

lemma pagesOf_clean (mids : List (PageResponse α)) (last : PageResponse α) :
    pagesOf (mids.map (fun m => (([] : List (PageResponse α)), m)) ++
        [(([] : List (PageResponse α)), last)]) = mids ++ [last] := by
  simp [pagesOf]

lemma runPagedQuery_clean (msg : String)
    (mids : List (PageResponse α)) (last : PageResponse α) (extra : List (PageResponse α))
    (hok : ∀ r ∈ mids ++ [last], responseOk r.status = true)
    (hmid : ∀ r ∈ mids, tokenFalsy r.continuation = false)
    (hlast : tokenFalsy last.continuation = true) :
    runPagedQuery msg ((mids ++ [last]) ++ extra) =
      (.ok ⟨((mids ++ [last]).map PageResponse.documents).flatten,
            ((mids ++ [last]).map PageResponse.requestCharge).sum,
            ((mids ++ [last]).map PageResponse.requestDurationMs).sum⟩, extra) := by
  have h := runPagedQuery_run msg (mids.map (fun m => (([] : List (PageResponse α)), m)))
    (([], last)) extra
    (by
      intro p hp
      rcases List.mem_append.mp hp with hp1 | hp1
      · obtain ⟨m, hm, rfl⟩ := List.mem_map.mp hp1
        exact ⟨by simp, by simp, hok m (by simp [hm])⟩
      · simp only [List.mem_singleton] at hp1
        subst hp1
        exact ⟨by simp, by simp, hok last (by simp)⟩)
    (by
      intro p hp
      obtain ⟨m, hm, rfl⟩ := List.mem_map.mp hp
      exact hmid m hm)
    hlast
  rw [flatTrace_clean, pagesOf_clean] at h
  exact h

/-- C3: over a page sequence whose final page carries no continuation token
(and whose earlier pages each carry one), the paginated query driver —
queryDocumentsGateway and getValueArrayForPkRange alike — consumes exactly one
response per page (the unconsumed remainder of the trace is exactly `extra`,
so there are `(mids ++ [last]).length` fetches, one per page), returns the
records of all pages concatenated in arrival order with within-page order
preserved and no deduplication, returns charge and duration equal to the sums
over all pages, and stops at the first token-free page even when further
responses are available. -/
theorem claim_C3_pagination_accumulation (α : Type)
    (databaseName collectionName pkRange query paramsText : String)
    (mids : List (PageResponse α)) (last : PageResponse α) (extra : List (PageResponse α))
    (hok : ∀ r ∈ mids ++ [last], responseOk r.status = true)
    (hmid : ∀ r ∈ mids, tokenFalsy r.continuation = false)
    (hlast : tokenFalsy last.continuation = true) :
    queryDocumentsGateway databaseName collectionName query paramsText
        ((mids ++ [last]) ++ extra) =
      (.ok ⟨((mids ++ [last]).map PageResponse.documents).flatten,
            ((mids ++ [last]).map PageResponse.requestCharge).sum,
            ((mids ++ [last]).map PageResponse.requestDurationMs).sum⟩, extra) ∧
    getValueArrayForPkRange databaseName collectionName pkRange query paramsText
        ((mids ++ [last]) ++ extra) =
      (.ok ⟨((mids ++ [last]).map PageResponse.documents).flatten,
            ((mids ++ [last]).map PageResponse.requestCharge).sum,
            ((mids ++ [last]).map PageResponse.requestDurationMs).sum⟩, extra) :=
  ⟨runPagedQuery_clean _ mids last extra hok hmid hlast,
   runPagedQuery_clean _ mids last extra hok hmid hlast⟩

/-- Closed instance of C3: the spec's three-page example, with single-record
pages and tokens t1, t2, none. -/
theorem claim_C3_witness :
    queryDocumentsGateway "db" "coll" "q" "prms"
        ((([⟨200, some "t1", 1, 10, ["a"], ""⟩, ⟨200, some "t2", 2, 20, ["b"], ""⟩] ++
          [⟨200, none, 3, 30, ["c"], ""⟩]) : List (PageResponse String)) ++ []) =
      (.ok ⟨((([⟨200, some "t1", 1, 10, ["a"], ""⟩, ⟨200, some "t2", 2, 20, ["b"], ""⟩] ++
                [⟨200, none, 3, 30, ["c"], ""⟩]) : List (PageResponse String)).map
                PageResponse.documents).flatten,
            ((([⟨200, some "t1", 1, 10, ["a"], ""⟩, ⟨200, some "t2", 2, 20, ["b"], ""⟩] ++
                [⟨200, none, 3, 30, ["c"], ""⟩]) : List (PageResponse String)).map
                PageResponse.requestCharge).sum,
            ((([⟨200, some "t1", 1, 10, ["a"], ""⟩, ⟨200, some "t2", 2, 20, ["b"], ""⟩] ++
                [⟨200, none, 3, 30, ["c"], ""⟩]) : List (PageResponse String)).map
                PageResponse.requestDurationMs).sum⟩, []) :=
  (claim_C3_pagination_accumulation String "db" "coll" "pk" "q" "prms"
    [⟨200, some "t1", 1, 10, ["a"], ""⟩, ⟨200, some "t2", 2, 20, ["b"], ""⟩]
    ⟨200, none, 3, 30, ["c"], ""⟩ [] (by decide) (by decide) (by decide)).1

/-- C8: a page attempt that fails (its response is classified transient and
retried) leaves the run's accumulators untouched — in the embedding a failing
`pageQueryAttempt` returns only its error, every accumulator update sitting
after both throw points — so a run whose pages each see some transient
failures before succeeding produces exactly the same records, charge,
duration and unconsumed trace as the clean run: earlier pages are preserved
across retries and no page is counted more than once.  Stated for both
paginated drivers. -/
theorem claim_C8_retry_preserves_accumulation (α : Type)
    (databaseName collectionName pkRange query paramsText : String)
    (fmids : List (List (PageResponse α) × PageResponse α))
    (flast : List (PageResponse α) × PageResponse α) (extra : List (PageResponse α))
    (hfailG : ∀ p ∈ fmids ++ [flast],
      (∀ b ∈ p.1,
        transientFailing (gatewayErrMsg databaseName collectionName query paramsText) b = true) ∧
      p.1.length ≤ CosmosDefaultRetryStrategy.length ∧
      responseOk p.2.status = true)
    (hfailP : ∀ p ∈ fmids ++ [flast],
      (∀ b ∈ p.1,
        transientFailing (pkRangeErrMsg databaseName collectionName pkRange query paramsText) b =
          true) ∧
      p.1.length ≤ CosmosDefaultRetryStrategy.length ∧
      responseOk p.2.status = true)
    (hmid : ∀ p ∈ fmids, tokenFalsy p.2.continuation = false)
    (hlast : tokenFalsy flast.2.continuation = true) :
    queryDocumentsGateway databaseName collectionName query paramsText
        (flatTrace (fmids ++ [flast]) ++ extra) =
      (.ok ⟨((pagesOf (fmids ++ [flast])).map PageResponse.documents).flatten,
            ((pagesOf (fmids ++ [flast])).map PageResponse.requestCharge).sum,
            ((pagesOf (fmids ++ [flast])).map PageResponse.requestDurationMs).sum⟩, extra) ∧
    getValueArrayForPkRange databaseName collectionName pkRange query paramsText
        (flatTrace (fmids ++ [flast]) ++ extra) =
      (.ok ⟨((pagesOf (fmids ++ [flast])).map PageResponse.documents).flatten,
            ((pagesOf (fmids ++ [flast])).map PageResponse.requestCharge).sum,
            ((pagesOf (fmids ++ [flast])).map PageResponse.requestDurationMs).sum⟩, extra) :=
  ⟨runPagedQuery_run _ fmids flast extra hfailG hmid hlast,
   runPagedQuery_run _ fmids flast extra hfailP hmid hlast⟩

/-- Closed instance of C8: page 1 is rate-limited once (429) and then
succeeds; page 2 succeeds immediately; the result equals the clean
accumulation of the two pages. -/
theorem claim_C8_witness :
    getValueArrayForPkRange "db" "coll" "rid,0" "q" "prms"
        (flatTrace (([([⟨429, none, 0, 0, [], ""⟩], ⟨200, some "t", 1, 10, [(5 : ℚ)], ""⟩)] :
            List (List (PageResponse ℚ) × PageResponse ℚ)) ++
          [([], ⟨200, none, 2, 20, [(7 : ℚ)], ""⟩)]) ++ []) =
      (.ok ⟨((pagesOf (([([⟨429, none, 0, 0, [], ""⟩], ⟨200, some "t", 1, 10, [(5 : ℚ)], ""⟩)] :
                List (List (PageResponse ℚ) × PageResponse ℚ)) ++
              [([], ⟨200, none, 2, 20, [(7 : ℚ)], ""⟩)])).map PageResponse.documents).flatten,
            ((pagesOf (([([⟨429, none, 0, 0, [], ""⟩], ⟨200, some "t", 1, 10, [(5 : ℚ)], ""⟩)] :
                List (List (PageResponse ℚ) × PageResponse ℚ)) ++
              [([], ⟨200, none, 2, 20, [(7 : ℚ)], ""⟩)])).map PageResponse.requestCharge).sum,
            ((pagesOf (([([⟨429, none, 0, 0, [], ""⟩], ⟨200, some "t", 1, 10, [(5 : ℚ)], ""⟩)] :
                List (List (PageResponse ℚ) × PageResponse ℚ)) ++
              [([], ⟨200, none, 2, 20, [(7 : ℚ)], ""⟩)])).map PageResponse.requestDurationMs).sum⟩,
        []) :=
  (claim_C8_retry_preserves_accumulation ℚ "db" "coll" "rid,0" "q" "prms"
    [([⟨429, none, 0, 0, [], ""⟩], ⟨200, some "t", 1, 10, [(5 : ℚ)], ""⟩)]
    ([], ⟨200, none, 2, 20, [(7 : ℚ)], ""⟩) [] (by decide) (by decide) (by decide)
    (by decide)).2

lemma getPkRangesForContainer_ok (databaseName collectionName : String)
    (pkr : PkRangesResponse) (rest : List PkRangesResponse)
    (h : responseOk pkr.status = true) :
    getPkRangesForContainer databaseName collectionName (pkr :: rest) =
      (.ok (pkr.partitionKeyRanges.map (fun pkrId => pkr.rid ++ "," ++ pkrId)), rest, []) := by
  unfold getPkRangesForContainer cosmosRetryable CosmosDefaultRetryStrategy
  simp [runRetry, getPkRangesAttempt, ensureRaising_ok_of_responseOk _ h, h]

lemma foldl_append_records {α : Type} (l : List (PagedResult α)) (acc : List α) :
    l.foldl (fun a c => a ++ c.records) acc = acc ++ (l.map PagedResult.records).flatten := by
  induction l generalizing acc with
  | nil => simp
  | cons c rest ih => simp [ih, List.append_assoc]

lemma foldl_add_proj {β : Type} (f : β → ℚ) (l : List β) (acc : ℚ) :
    l.foldl (fun a c => a + f c) acc = acc + (l.map f).sum := by
  induction l generalizing acc with
  | nil => simp
  | cons c rest ih => simp [ih]; ring

lemma promiseAll_append_error {σ : Type} (l1 : List (Except JsError σ)) (e : JsError)
    (l2 : List (Except JsError σ)) (hok : ∀ x ∈ l1, ∃ v, x = .ok v) :
    promiseAll (l1 ++ .error e :: l2) = .error e := by
  induction l1 with
  | nil => rfl
  | cons x l1' ih =>
    obtain ⟨v, rfl⟩ := hok x (by simp)
    rw [List.cons_append]
    simp only [promiseAll]
    rw [ih (fun y hy => hok y (by simp [hy]))]

lemma promiseAll_ok_forall {σ : Type} : ∀ (l : List (Except JsError σ)) (vs : List σ),
    promiseAll l = .ok vs → ∀ x ∈ l, ∃ v, x = .ok v := by
  intro l
  induction l with
  | nil => intro vs _ x hx; simp at hx
  | cons x0 rest ih =>
    intro vs h x hx
    cases x0 with
    | error e => simp [promiseAll] at h
    | ok v0 =>
      rcases List.mem_cons.mp hx with rfl | hmem
      · exact ⟨v0, rfl⟩
      · cases hrest : promiseAll rest with
        | error e =>
          simp only [promiseAll, hrest] at h
          exact absurd h (by simp)
        | ok vs' => exact ih vs' hrest x hmem

/-- The result of a clean (failure-free) per-range paginated run. -/
def cleanRangeResult (p : List (PageResponse α) × PageResponse α) : PagedResult α :=
  ⟨((p.1 ++ [p.2]).map PageResponse.documents).flatten,
   ((p.1 ++ [p.2]).map PageResponse.requestCharge).sum,
   ((p.1 ++ [p.2]).map PageResponse.requestDurationMs).sum⟩

lemma zip_drivers_ok (databaseName collectionName query paramsText : String) {α : Type} :
    ∀ (ids : List String) (runs : List (List (PageResponse α) × PageResponse α)),
      ids.length = runs.length →
      (∀ p ∈ runs, (∀ r ∈ p.1 ++ [p.2], responseOk r.status = true) ∧
        (∀ r ∈ p.1, tokenFalsy r.continuation = false) ∧
        tokenFalsy p.2.continuation = true) →
      promiseAll ((ids.zip (runs.map (fun p => p.1 ++ [p.2]))).map (fun pr =>
          (getValueArrayForPkRange databaseName collectionName pr.1 query paramsText pr.2).1)) =
        .ok (runs.map cleanRangeResult) := by
  intro ids
  induction ids with
  | nil =>
    intro runs hlen _
    have : runs = [] := by
      cases runs with
      | nil => rfl
      | cons _ _ => simp at hlen
    subst this
    rfl
  | cons i ids' ih =>
    intro runs hlen hcl
    cases runs with
    | nil => simp at hlen
    | cons p runs' =>
      obtain ⟨hok, hmid, hlast⟩ := hcl p (by simp)
      have hdrv : (getValueArrayForPkRange databaseName collectionName i query paramsText
          (p.1 ++ [p.2])).1 = .ok (cleanRangeResult p) := by
        unfold getValueArrayForPkRange
        have h2 := runPagedQuery_clean
          (pkRangeErrMsg databaseName collectionName i query paramsText) p.1 p.2 [] hok hmid hlast
        rw [List.append_nil] at h2
        rw [h2]
        rfl
      simp only [List.map_cons, List.zip_cons_cons, promiseAll, hdrv]
      rw [ih runs' (by simpa using hlen) (fun x hx => hcl x (by simp [hx]))]

/-- C2: a cross-partition query over clean per-range page runs returns, under
`concatArrays`, exactly the concatenation of each range's record sequence in
range-resolution order with no reordering or deduplication, and, under `sum`,
the numeric sum of all elements of that concatenation; in both modes the
request charge and duration equal the sums of those quantities over every
range and every page within every range. -/
theorem claim_C2_cross_partition_combine (α : Type)
    (databaseName collectionName query paramsText : String) (asNum : α → ℚ)
    (pkr : PkRangesResponse) (runs : List (List (PageResponse α) × PageResponse α))
    (hpk : responseOk pkr.status = true)
    (hlen : pkr.partitionKeyRanges.length = runs.length)
    (hcl : ∀ p ∈ runs, (∀ r ∈ p.1 ++ [p.2], responseOk r.status = true) ∧
      (∀ r ∈ p.1, tokenFalsy r.continuation = false) ∧
      tokenFalsy p.2.continuation = true) :
    queryDocumentsContainersDirect databaseName collectionName query paramsText
        CombineMode.concatArrays asNum [pkr] (runs.map (fun p => p.1 ++ [p.2])) =
      .ok ⟨DirectData.arr ((runs.map (fun p => ((p.1 ++ [p.2]).map PageResponse.documents).flatten)).flatten),
           (runs.map (fun p => ((p.1 ++ [p.2]).map PageResponse.requestCharge).sum)).sum,
           (runs.map (fun p => ((p.1 ++ [p.2]).map PageResponse.requestDurationMs).sum)).sum⟩ ∧
    queryDocumentsContainersDirect databaseName collectionName query paramsText
        CombineMode.sum asNum [pkr] (runs.map (fun p => p.1 ++ [p.2])) =
      .ok ⟨DirectData.num
             ((((runs.map (fun p => ((p.1 ++ [p.2]).map PageResponse.documents).flatten)).flatten).map
                asNum).sum),
           (runs.map (fun p => ((p.1 ++ [p.2]).map PageResponse.requestCharge).sum)).sum,
           (runs.map (fun p => ((p.1 ++ [p.2]).map PageResponse.requestDurationMs).sum)).sum⟩ := by
  have hres1 : (getPkRangesForContainer databaseName collectionName [pkr]).1 =
      .ok (pkr.partitionKeyRanges.map (fun pkrId => pkr.rid ++ "," ++ pkrId)) := by
    rw [getPkRangesForContainer_ok databaseName collectionName pkr [] hpk]
  have hall := zip_drivers_ok databaseName collectionName query paramsText
    (pkr.partitionKeyRanges.map (fun pkrId => pkr.rid ++ "," ++ pkrId)) runs
    (by simpa using hlen) hcl
  constructor <;>
  · unfold queryDocumentsContainersDirect
    simp only [hres1, hall, foldl_append_records, foldl_add_proj, List.nil_append, zero_add,
      List.map_map]
    simp [cleanRangeResult, Function.comp_def]

/-- The concrete three-range, one-page-per-range environment of the spec's
cross-partition sum example (pages [10], [20], [12]). -/
def sumExampleRuns : List (List (PageResponse ℚ) × PageResponse ℚ) :=
  [([], ⟨200, none, 1, 10, [(10 : ℚ)], ""⟩),
   ([], ⟨200, none, 2, 20, [(20 : ℚ)], ""⟩),
   ([], ⟨200, none, 3, 30, [(12 : ℚ)], ""⟩)]

/-- Closed instance of C2 (the spec's sum example): three ranges yielding
single pages [10], [20], [12] produce data 42 under `sum`. -/
theorem claim_C2_witness :
    queryDocumentsContainersDirect "db" "coll" "q" "prms" CombineMode.sum (fun q => q)
        [⟨200, "rid1", ["0", "1", "2"], ""⟩] (sumExampleRuns.map (fun p => p.1 ++ [p.2])) =
      .ok ⟨DirectData.num
             (((sumExampleRuns.map
                  (fun p => ((p.1 ++ [p.2]).map PageResponse.documents).flatten)).flatten.map
                (fun q => q)).sum),
           (sumExampleRuns.map (fun p => ((p.1 ++ [p.2]).map PageResponse.requestCharge).sum)).sum,
           (sumExampleRuns.map
             (fun p => ((p.1 ++ [p.2]).map PageResponse.requestDurationMs).sum)).sum⟩ ∧
    ((sumExampleRuns.map
        (fun p => ((p.1 ++ [p.2]).map PageResponse.documents).flatten)).flatten.map
      (fun q : ℚ => q)).sum = (42 : ℚ) :=
  ⟨(claim_C2_cross_partition_combine ℚ "db" "coll" "q" "prms" (fun q => q)
      ⟨200, "rid1", ["0", "1", "2"], ""⟩ sumExampleRuns
      (by decide) (by decide) (by decide)).2,
   by norm_num [sumExampleRuns]⟩

/-- C7: cross-partition aggregation is all-or-nothing.  If any single range's
paginated run fails (after its retries) with an error while the runs listed
before it succeed, the entire queryDocumentsContainersDirect call fails with
exactly that error, returning no data, charge or duration; conversely a
successful aggregate call implies every range's run succeeded, so no partial
cross-partition result is ever returned. -/
theorem claim_C7_all_or_nothing (α : Type)
    (databaseName collectionName query paramsText : String)
    (transform : CombineMode) (asNum : α → ℚ)
    (pkr : PkRangesResponse) (pkRest : List PkRangesResponse)
    (rangeNets : List (List (PageResponse α)))
    (hpk : responseOk pkr.status = true) :
    (∀ (zs1 zs2 : List (String × List (PageResponse α))) (z : String × List (PageResponse α))
        (e : JsError),
      (pkr.partitionKeyRanges.map (fun pkrId => pkr.rid ++ "," ++ pkrId)).zip rangeNets =
        zs1 ++ z :: zs2 →
      (∀ w ∈ zs1, ∃ v, (getValueArrayForPkRange databaseName collectionName w.1 query
        paramsText w.2).1 = .ok v) →
      (getValueArrayForPkRange databaseName collectionName z.1 query paramsText z.2).1 =
        .error e →
      queryDocumentsContainersDirect databaseName collectionName query paramsText transform
        asNum (pkr :: pkRest) rangeNets = .error e) ∧
    (∀ res, queryDocumentsContainersDirect databaseName collectionName query paramsText transform
        asNum (pkr :: pkRest) rangeNets = .ok res →
      ∀ w ∈ (pkr.partitionKeyRanges.map (fun pkrId => pkr.rid ++ "," ++ pkrId)).zip rangeNets,
        ∃ v, (getValueArrayForPkRange databaseName collectionName w.1 query paramsText w.2).1 =
          .ok v) := by
  have hres1 : (getPkRangesForContainer databaseName collectionName (pkr :: pkRest)).1 =
      .ok (pkr.partitionKeyRanges.map (fun pkrId => pkr.rid ++ "," ++ pkrId)) := by
    rw [getPkRangesForContainer_ok databaseName collectionName pkr pkRest hpk]
  constructor
  · intro zs1 zs2 z e hzip hok herr
    unfold queryDocumentsContainersDirect
    simp only [hres1, hzip, List.map_append, List.map_cons, herr]
    rw [promiseAll_append_error (zs1.map (fun pr =>
        (getValueArrayForPkRange databaseName collectionName pr.1 query paramsText pr.2).1)) e _
      (by
        intro x hx
        obtain ⟨w, hw, rfl⟩ := List.mem_map.mp hx
        exact hok w hw)]
  · intro res h w hw
    unfold queryDocumentsContainersDirect at h
    simp only [hres1] at h
    cases hall : promiseAll (((pkr.partitionKeyRanges.map
        (fun pkrId => pkr.rid ++ "," ++ pkrId)).zip rangeNets).map (fun pr =>
          (getValueArrayForPkRange databaseName collectionName pr.1 query paramsText pr.2).1)) with
    | error e => rw [hall] at h; cases h
    | ok vs =>
      exact promiseAll_ok_forall _ vs hall _
        (List.mem_map.mpr ⟨w, hw, rfl⟩)

/-- Closed instance of C7: a single range whose only page returns a permanent
400 makes the whole aggregate call fail with that permanent error. -/
theorem claim_C7_witness :
    queryDocumentsContainersDirect "db" "coll" "q" "prms" CombineMode.concatArrays
        (fun q : ℚ => q) [⟨200, "rid1", ["0"], ""⟩] [[⟨400, none, 1, 1, [], "bad request"⟩]] =
      .error ⟨false, pkRangeErrMsg "db" "coll" ("rid1" ++ "," ++ "0") "q" "prms" ++ "\n" ++
        "bad request"⟩ :=
  (claim_C7_all_or_nothing ℚ "db" "coll" "q" "prms" CombineMode.concatArrays (fun q => q)
      ⟨200, "rid1", ["0"], ""⟩ [] [[⟨400, none, 1, 1, [], "bad request"⟩]] (by decide)).1
    [] [] ("rid1" ++ "," ++ "0", [⟨400, none, 1, 1, [], "bad request"⟩])
    ⟨false, pkRangeErrMsg "db" "coll" ("rid1" ++ "," ++ "0") "q" "prms" ++ "\n" ++ "bad request"⟩
    (by decide) (by intro w hw; exact absurd hw (List.not_mem_nil w)) (by decide)

end DazureCosmos
